import Mathlib

/-
Verification of the mini HTTP server (src/app/main.py) against its
natural-language specification.

Modelling conventions:
- Python `str` is modelled as `PyStr := List Char` (a sequence of Unicode
  code points, as in CPython).
- Python `bytes` is modelled as `Bytes := List Nat` (byte values 0..255).
- Python dicts used as header maps / the filesystem are modelled as
  association lists with Python-dict insertion semantics: an existing key
  is updated in place (its position is kept), a new key is appended.
  Keys built by `alInsert` starting from `[]` are unique, so replacing the
  first occurrence models dict assignment exactly.
- `gzip.compress` is an external library collaborator; every definition
  that can reach it is parameterised over an arbitrary compression
  function `gz : Bytes → Bytes`.
- The filesystem is an external collaborator, modelled as a flat map from
  full path string to file bytes (`Fs`); `mkdir` is a no-op on this model.
- `handle_client` is modelled one loop iteration at a time by `connStep`,
  which consumes the bytes of one `sock_recv` and returns the updated
  global state together with what the iteration did: `eof` (zero-length
  read, close), `fatal` (an exception was raised, caught by the
  connection-level handler: nothing is written, the connection closes),
  or `respond out close` (exactly one write of `out`; `close = true`
  means the loop breaks, i.e. the CLOSING transition, `close = false`
  means it loops back to read the next request).
- The three module-level response singletons RESP_200 / RESP_404 /
  RESP_201 are part of the mutable global state (`ServerState`), and the
  dispatcher returns a *reference* (`RespRef`) so that the in-place
  header mutation `resp.headers["Connection"] = "close"` is modelled
  faithfully, aliasing included.
-/

abbrev PyStr := List Char

abbrev Bytes := List Nat

/-- Coerce a Lean string literal to the `List Char` model of Python `str`. -/
def pstr (s : String) : PyStr := s.data

/-- The characters stripped by Python `str.strip()` (Unicode whitespace). -/
def pyStrWhitespace : PyStr :=
  [' ', '\t', '\n', '\x0b', '\x0c', '\r',
   Char.ofNat 0x1c, Char.ofNat 0x1d, Char.ofNat 0x1e, Char.ofNat 0x1f,
   Char.ofNat 0x85, Char.ofNat 0xa0, Char.ofNat 0x1680,
   Char.ofNat 0x2000, Char.ofNat 0x2001, Char.ofNat 0x2002,
   Char.ofNat 0x2003, Char.ofNat 0x2004, Char.ofNat 0x2005,
   Char.ofNat 0x2006, Char.ofNat 0x2007, Char.ofNat 0x2008,
   Char.ofNat 0x2009, Char.ofNat 0x200a, Char.ofNat 0x2028,
   Char.ofNat 0x2029, Char.ofNat 0x202f, Char.ofNat 0x205f,
   Char.ofNat 0x3000]

/-- Whitespace test used by Python `str.strip()`. -/
def strIsSpace (c : Char) : Bool := pyStrWhitespace.contains c

/-- Whitespace test used by Python `bytes.strip()` (ASCII whitespace only). -/
def byteIsSpace (b : Nat) : Bool := [9, 10, 11, 12, 13, 32].contains b

/-- Python `.strip()`: drop leading and trailing elements satisfying `isSp`. -/
def pyStrip {α : Type} (isSp : α → Bool) (s : List α) : List α :=
  ((s.dropWhile isSp).reverse.dropWhile isSp).reverse

/-- Python `s.split(sep)` for a single-character separator `sep`:
splits at every occurrence, keeping empty pieces; `"".split(sep) = [""]`. -/
def splitOnChar (sep : Char) : PyStr → List PyStr
  | [] => [[]]
  | c :: rest =>
    if c = sep then
      [] :: splitOnChar sep rest
    else
      match splitOnChar sep rest with
      | h :: t => (c :: h) :: t
      | [] => [[c]]

/-- Python `s.split(sep, 1)` restricted to the case used by the code:
returns the pieces before and after the first occurrence of `sep`,
or `none` when `sep` does not occur (i.e. `sep not in s`). -/
def splitOnceChar (sep : Char) : PyStr → Option (PyStr × PyStr)
  | [] => none
  | c :: rest =>
    if c = sep then some ([], rest)
    else (splitOnceChar sep rest).map (fun p => (c :: p.1, p.2))

/-- `listHasPre l p` holds when `p` is a prefix of `l`. -/
def listHasPre {α : Type} [DecidableEq α] : List α → List α → Bool
  | _, [] => true
  | [], _ :: _ => false
  | a :: as, b :: bs => if a = b then listHasPre as bs else false

/-- Python `pat in l` for sequences: contiguous-subsequence containment. -/
def listContains {α : Type} [DecidableEq α] : List α → List α → Bool
  | l, pat =>
    if listHasPre l pat then true
    else
      match l with
      | [] => false
      | _ :: rest => listContains rest pat

/-- Python-dict insertion on an association list: an existing key is
updated in place, a new key is appended at the end. -/
def alInsert {κ ν : Type} [DecidableEq κ] : List (κ × ν) → κ → ν → List (κ × ν)
  | [], k, v => [(k, v)]
  | (k', v') :: rest, k, v =>
    if k' = k then (k, v) :: rest else (k', v') :: alInsert rest k v

/-- Python-dict lookup (`d.get(k)`) on an association list. -/
def alGet {κ ν : Type} [DecidableEq κ] : List (κ × ν) → κ → Option ν
  | [], _ => none
  | (k', v') :: rest, k => if k' = k then some v' else alGet rest k

/-- UTF-8 encoding of one Unicode code point. -/
def utf8EncodeCp (n : Nat) : Bytes :=
  if n < 0x80 then [n]
  else if n < 0x800 then
    [0xC0 + n / 0x40, 0x80 + n % 0x40]
  else if n < 0x10000 then
    [0xE0 + n / 0x1000, 0x80 + (n / 0x40) % 0x40, 0x80 + n % 0x40]
  else
    [0xF0 + n / 0x40000, 0x80 + (n / 0x1000) % 0x40,
     0x80 + (n / 0x40) % 0x40, 0x80 + n % 0x40]

/-- Python `s.encode("utf-8")`. -/
def utf8Encode (s : PyStr) : Bytes := (s.map (fun c => utf8EncodeCp c.toNat)).flatten

/-- A UTF-8 continuation byte. -/
def isCont (b : Nat) : Bool := 0x80 ≤ b && b < 0xC0

/-- Python `b.decode("utf-8")` with strict error handling: `none` models a
raised `UnicodeDecodeError`. Follows the strict table of RFC 3629 as CPython
does (no overlong forms, no surrogates, nothing above U+10FFFF). -/
def utf8Decode : Bytes → Option PyStr
  | [] => some []
  | b :: rest =>
    if b < 0x80 then
      (utf8Decode rest).map (fun t => Char.ofNat b :: t)
    else if b < 0xC2 then none
    else if b < 0xE0 then
      match rest with
      | b1 :: r =>
        if isCont b1 then
          (utf8Decode r).map
            (fun t => Char.ofNat ((b - 0xC0) * 0x40 + (b1 - 0x80)) :: t)
        else none
      | [] => none
    else if b < 0xF0 then
      match rest with
      | b1 :: b2 :: r =>
        if (((if b = 0xE0 then 0xA0 else 0x80) ≤ b1 &&
             b1 < (if b = 0xED then 0xA0 else 0xC0)) && isCont b2) then
          (utf8Decode r).map
            (fun t =>
              Char.ofNat ((b - 0xE0) * 0x1000 + (b1 - 0x80) * 0x40 + (b2 - 0x80)) :: t)
        else none
      | _ => none
    else if b < 0xF5 then
      match rest with
      | b1 :: b2 :: b3 :: r =>
        if ((((if b = 0xF0 then 0x90 else 0x80) ≤ b1 &&
              b1 < (if b = 0xF4 then 0x90 else 0xC0)) && isCont b2) && isCont b3) then
          (utf8Decode r).map
            (fun t =>
              Char.ofNat ((b - 0xF0) * 0x40000 + (b1 - 0x80) * 0x1000 +
                          (b2 - 0x80) * 0x40 + (b3 - 0x80)) :: t)
        else none
      | _ => none
    else none

/-- Worker for `splitlinesBytes`: `acc` holds the current line reversed. -/
def splitlinesGo : Bytes → Bytes → List Bytes
  | [], acc => [acc.reverse]
  | 13 :: 10 :: rest, acc =>
    acc.reverse :: (if rest = [] then [] else splitlinesGo rest [])
  | 13 :: rest, acc =>
    acc.reverse :: (if rest = [] then [] else splitlinesGo rest [])
  | 10 :: rest, acc =>
    acc.reverse :: (if rest = [] then [] else splitlinesGo rest [])
  | b :: rest, acc => splitlinesGo rest (b :: acc)

/-- Python `bytes.splitlines()`: line breaks are `\r\n`, `\r`, `\n`;
no trailing empty line; `b"".splitlines() = []`. -/
def splitlinesBytes (bs : Bytes) : List Bytes :=
  if bs = [] then [] else splitlinesGo bs []

/-- Model of Python's `http.HTTPStatus`: numeric value and reason phrase. -/
structure HTTPStatus where
  code : Nat
  phrase : PyStr
deriving DecidableEq

/-- `HTTPStatus(200)`. -/
def status200 : HTTPStatus := ⟨200, pstr ("OK")⟩

/-- `HTTPStatus(201)`. -/
def status201 : HTTPStatus := ⟨201, pstr ("Created")⟩

/-- `HTTPStatus(404)`. -/
def status404 : HTTPStatus := ⟨404, pstr ("Not Found")⟩

/-- `HttpReqLine` from src/app/main.py. -/
structure HttpReqLine where
  method : PyStr
  path : PyStr
  version : PyStr
deriving DecidableEq

/-- `HttpReqLine.from_str`: strip, split on single spaces, require exactly
three tokens; `none` models the raised `ValueError` (MalformedRequestLine). -/
def HttpReqLine.from_str (text : PyStr) : Option HttpReqLine :=
  match splitOnChar ' ' (pyStrip strIsSpace text) with
  | [m, p, v] => some ⟨m, p, v⟩
  | _ => none

/-- The header map of `HttpHeaders` (a `UserDict[str, str]`). -/
abbrev Headers := List (PyStr × PyStr)

/-- Loop body of `HttpHeaders.from_list`, processing the remaining raw
lines with the headers accumulated so far. Each line is utf-8-decoded
(`none` models the raised `UnicodeDecodeError`), lines without a colon are
skipped, the rest are split on the first colon and both sides stripped. -/
def headersFromListAux (acc : Headers) : List Bytes → Option Headers
  | [] => some acc
  | line :: rest =>
    match utf8Decode line with
    | none => none
    | some s =>
      match splitOnceChar ':' s with
      | none => headersFromListAux acc rest
      | some (k, v) =>
        headersFromListAux
          (alInsert acc (pyStrip strIsSpace k) (pyStrip strIsSpace v)) rest

/-- `HttpHeaders.from_list`. -/
def headersFromList (lines : List Bytes) : Option Headers :=
  headersFromListAux [] lines

/-- One serialized header line, `f"{key}: {value}\r\n".encode("utf-8")`. -/
def headerLineBytes (k v : PyStr) : Bytes :=
  utf8Encode (k ++ pstr (": ") ++ v ++ pstr ("\r\n"))

/-- `HttpHeaders.to_bytes`: each header serialized as `"<key>: <value>\r\n"`. -/
def headersToBytes (h : Headers) : Bytes :=
  (h.map (fun p => headerLineBytes p.1 p.2)).flatten

/-- `HttpRequest` from src/app/main.py. -/
structure HttpRequest where
  req_line : HttpReqLine
  headers : Headers
  body : Option Bytes
deriving DecidableEq

/-- `HttpRequest.__init__`: a body that is empty or whitespace-only after
`bytes.strip()` is normalized to `None`. -/
def mkHttpRequest (rl : HttpReqLine) (h : Headers) (body : Option Bytes) : HttpRequest :=
  ⟨rl, h,
   match body with
   | none => none
   | some b => if (pyStrip byteIsSpace b).length = 0 then none else some b⟩

/-- `HttpRequest.from_str`: `[first, *second, last] = text.splitlines()`
(`none` when fewer than two lines are present, modelling the raised
unpacking `ValueError` / MalformedRequest), then the first line is parsed
as the request line, the middle lines as headers, and the last line is
passed as the body. -/
def HttpRequest.from_str (text : Bytes) : Option HttpRequest :=
  match splitlinesBytes text with
  | first :: x :: xs =>
    match utf8Decode first with
    | none => none
    | some fl =>
      match HttpReqLine.from_str fl with
      | none => none
      | some rl =>
        match headersFromList ((x :: xs).dropLast) with
        | none => none
        | some hs => some (mkHttpRequest rl hs (some ((x :: xs).getLastD [])))
  | _ => none

/-- `HttpResponse` from src/app/main.py. -/
structure HttpResponse where
  status : HTTPStatus
  headers : Headers
  body : Bytes
deriving DecidableEq

/-- The test `compression is not None and "gzip" in compression` from
`HttpResponse.__init__`. -/
def compressionHasGzip (c : Option PyStr) : Bool :=
  match c with
  | none => false
  | some v => listContains v (pstr ("gzip"))

/-- `HttpResponse.__init__`, parameterised over the external
`gzip.compress` function `gz`. When compression applies the body is
compressed first and `Content-Length` set to the compressed length with
`Content-Encoding: gzip` added; otherwise `Content-Length` is set to the
raw body length. `body or b""` is modelled by `Option.getD` (an empty body
is falsy and gives `b""` as well, which coincides with `getD []`). -/
def mkHttpResponse (gz : Bytes → Bytes) (status : HTTPStatus)
    (headers : Option Headers) (body : Option Bytes) (compression : Option PyStr) :
    HttpResponse :=
  let h0 := headers.getD []
  if compressionHasGzip compression then
    let b := gz (body.getD [])
    let h1 := alInsert h0 (pstr ("Content-Length")) (Nat.repr b.length).data
    ⟨status, alInsert h1 (pstr ("Content-Encoding")) (pstr ("gzip")), b⟩
  else
    let b := body.getD []
    ⟨status, alInsert h0 (pstr ("Content-Length")) (Nat.repr b.length).data, b⟩

/-- `HttpResponse.to_bytes`:
`b"\r\n".join([status_line, headers.to_bytes(), body])`. -/
def respToBytes (r : HttpResponse) : Bytes :=
  utf8Encode (pstr ("HTTP/1.1 ") ++ (Nat.repr r.status.code).data ++
              pstr (" ") ++ r.status.phrase)
    ++ [13, 10] ++ headersToBytes r.headers ++ [13, 10] ++ r.body

/-- The module-level singleton `RESP_404 = HttpResponse(HTTPStatus(404))`.
The compression argument is `None`, so the compression function is never
applied; an arbitrary one is supplied to instantiate the parameter. -/
def RESP_404 : HttpResponse := mkHttpResponse (fun b => b) status404 none none none

/-- The module-level singleton `RESP_200 = HttpResponse(HTTPStatus(200))`. -/
def RESP_200 : HttpResponse := mkHttpResponse (fun b => b) status200 none none none

/-- The module-level singleton `RESP_201 = HttpResponse(HTTPStatus(201))`. -/
def RESP_201 : HttpResponse := mkHttpResponse (fun b => b) status201 none none none

/-- `echo_handler`: pre-populates `Content-Type` and `Content-Length`
(with the uncompressed length) and builds the response with the request's
`Accept-Encoding` value as the compression argument. -/
def echo_handler (gz : Bytes → Bytes) (text : Bytes) (req_headers : Headers) :
    HttpResponse :=
  mkHttpResponse gz status200
    (some [(pstr ("Content-Type"), pstr ("text/plain")),
           (pstr ("Content-Length"), (Nat.repr text.length).data)])
    (some text)
    (alGet req_headers (pstr ("Accept-Encoding")))

/-- Handler-level failures that `handle_client` catches: `LookupError`
("User-Agent is not in headers") and `ValueError` ("The directory of files
path is not provided"). -/
inductive HandlerErr where
  | missingUserAgent
  | directoryNotConfigured
deriving DecidableEq

/-- `user_agent_handler`: 200 with the `User-Agent` value as body, built
without a compression argument; raises (models `LookupError`) when the
header is absent. The pre-populated `Content-Length` uses the character
count of the header value; `HttpResponse.__init__` overwrites it with the
byte length of the encoded body. -/
def user_agent_handler (req : HttpRequest) : Except HandlerErr HttpResponse :=
  match alGet req.headers (pstr ("User-Agent")) with
  | none => Except.error HandlerErr.missingUserAgent
  | some ua =>
    Except.ok (mkHttpResponse (fun b => b) status200
      (some [(pstr ("Content-Type"), pstr ("text/plain")),
             (pstr ("Content-Length"), (Nat.repr ua.length).data)])
      (some (utf8Encode ua)) none)

/-- The filesystem external collaborator: a flat map from full path
(the plain concatenation `directory + file_name` used by the code) to the
file's bytes. -/
abbrev Fs := List (PyStr × Bytes)

/-- A reference to the response chosen by the dispatcher: one of the three
module-level singletons, or a freshly constructed response. Needed to
model Python aliasing: mutating a singleton's header dict persists. -/
inductive RespRef where
  | r200
  | r404
  | r201
  | fresh (r : HttpResponse)
deriving DecidableEq

/-- `files_get_handler`: 404 when no directory is configured or the file
is absent (`FileNotFoundError`), otherwise a fresh 200 built from the file
bytes with the request's `Accept-Encoding` as compression argument. -/
def files_get_handler (gz : Bytes → Bytes) (directory : Option PyStr) (fs : Fs)
    (file_name : PyStr) (req_headers : Headers) : RespRef :=
  match directory with
  | none => RespRef.r404
  | some d =>
    match alGet fs (d ++ file_name) with
    | none => RespRef.r404
    | some content =>
      RespRef.fresh (mkHttpResponse gz status200
        (some [(pstr ("Content-Type"), pstr ("application/octet-stream")),
               (pstr ("Content-Length"), (Nat.repr content.length).data)])
        (some content)
        (alGet req_headers (pstr ("Accept-Encoding"))))

/-- `files_post_handler`: raises (models `ValueError`) when no directory
is configured, otherwise writes the content at `directory + file_name`
(overwriting) and returns the 201 singleton. -/
def files_post_handler (directory : Option PyStr) (fs : Fs)
    (file_name : PyStr) (content : Bytes) : Except HandlerErr (RespRef × Fs) :=
  match directory with
  | none => Except.error HandlerErr.directoryNotConfigured
  | some d => Except.ok (RespRef.r201, alInsert fs (d ++ file_name) content)

/-- The `match http_request.req_line.path.split("/")[1:]` dispatch of
`handle_client`, including the method guards on the `files` route; the
wildcard case yields the 404 singleton. -/
def dispatch (gz : Bytes → Bytes) (directory : Option PyStr) (fs : Fs)
    (req : HttpRequest) : Except HandlerErr (RespRef × Fs) :=
  match (splitOnChar '/' req.req_line.path).drop 1 with
  | [s] =>
    if s = pstr ("") then Except.ok (RespRef.r200, fs)
    else if s = pstr ("user-agent") then
      (user_agent_handler req).map (fun r => (RespRef.fresh r, fs))
    else Except.ok (RespRef.r404, fs)
  | [s, t] =>
    if s = pstr ("echo") then
      Except.ok (RespRef.fresh (echo_handler gz (utf8Encode t) req.headers), fs)
    else if s = pstr ("files") then
      if req.req_line.method = pstr ("GET") then
        Except.ok (files_get_handler gz directory fs t req.headers, fs)
      else if req.req_line.method = pstr ("POST") then
        files_post_handler directory fs t (req.body.getD [])
      else Except.ok (RespRef.r404, fs)
    else Except.ok (RespRef.r404, fs)
  | _ => Except.ok (RespRef.r404, fs)

/-- The process-wide mutable state: the three response singletons and the
filesystem. -/
structure ServerState where
  resp200 : HttpResponse
  resp404 : HttpResponse
  resp201 : HttpResponse
  fs : Fs
deriving DecidableEq

/-- The state at module load: freshly constructed singletons, a given
filesystem. -/
def initState (fs : Fs) : ServerState :=
  ⟨RESP_200, RESP_404, RESP_201, fs⟩

/-- Dereference a `RespRef` in the current state. -/
def getRef (st : ServerState) : RespRef → HttpResponse
  | RespRef.r200 => st.resp200
  | RespRef.r404 => st.resp404
  | RespRef.r201 => st.resp201
  | RespRef.fresh r => r

/-- `resp.headers["Connection"] = "close"`: mutates the referenced
response's header dict in place. When the reference is a singleton the
mutation persists in the server state (Python aliasing). -/
def setConnCloseRef (st : ServerState) (ref : RespRef) : ServerState × HttpResponse :=
  match ref with
  | RespRef.r200 =>
    let r := ⟨st.resp200.status,
              alInsert st.resp200.headers (pstr ("Connection")) (pstr ("close")),
              st.resp200.body⟩
    ({st with resp200 := r}, r)
  | RespRef.r404 =>
    let r := ⟨st.resp404.status,
              alInsert st.resp404.headers (pstr ("Connection")) (pstr ("close")),
              st.resp404.body⟩
    ({st with resp404 := r}, r)
  | RespRef.r201 =>
    let r := ⟨st.resp201.status,
              alInsert st.resp201.headers (pstr ("Connection")) (pstr ("close")),
              st.resp201.body⟩
    ({st with resp201 := r}, r)
  | RespRef.fresh x =>
    (st, ⟨x.status, alInsert x.headers (pstr ("Connection")) (pstr ("close")), x.body⟩)

/-- What one iteration of the `while True` loop in `handle_client` did. -/
inductive IterResult where
  | eof
  | fatal
  | respond (out : Bytes) (close : Bool)
deriving DecidableEq

/-- One iteration of `handle_client`, given the bytes returned by
`sock_recv`. `eof` is the zero-length-read break; `fatal` models any
exception reaching the connection-level `except` handler (nothing is
written, the loop ends, the socket is closed); `respond out close`
performs exactly one `sock_sendall` of `out`, and `close` records whether
the loop breaks afterwards (the request's `Connection` header equals
`close`, or its version is not `HTTP/1.1`). -/
def connStep (gz : Bytes → Bytes) (directory : Option PyStr)
    (st : ServerState) (raw : Bytes) : ServerState × IterResult :=
  if raw = [] then (st, IterResult.eof)
  else
    match HttpRequest.from_str raw with
    | none => (st, IterResult.fatal)
    | some req =>
      match dispatch gz directory st.fs req with
      | Except.error _ => (st, IterResult.fatal)
      | Except.ok (ref, fs') =>
        let st1 : ServerState := {st with fs := fs'}
        if alGet req.headers (pstr ("Connection")) = some (pstr ("close")) then
          let p := setConnCloseRef st1 ref
          (p.1, IterResult.respond (respToBytes p.2) true)
        else
          (st1, IterResult.respond (respToBytes (getRef st1 ref))
                  (decide (req.req_line.version ≠ pstr ("HTTP/1.1"))))

/-- Spec-side description of what one raw header line contributes to the
header map, written from the spec's words ("split on the first colon; trim
whitespace from key and value; skip lines without a colon") for comparison
with `headersFromList`: `none` when the line is skipped. -/
def specLineKV (l : Bytes) : Option (PyStr × PyStr) :=
  (utf8Decode l).bind (fun s =>
    (splitOnceChar ':' s).map (fun p =>
      (pyStrip strIsSpace p.1, pyStrip strIsSpace p.2)))

/-- The serialized `Content-Length` header of a response names exactly the
byte length of its body. -/
def ContentLengthOk (r : HttpResponse) : Prop :=
  alGet r.headers (pstr ("Content-Length")) = some ((Nat.repr r.body.length).data)

/-- All three response singletons satisfy `ContentLengthOk`. -/
def StateOk (st : ServerState) : Prop :=
  ContentLengthOk st.resp200 ∧ ContentLengthOk st.resp404 ∧ ContentLengthOk st.resp201

theorem alGet_insert_self {κ ν : Type} [DecidableEq κ] (m : List (κ × ν)) (k : κ) (v : ν) :
    alGet (alInsert m k v) k = some v := by
  induction m with
  | nil => simp [alInsert, alGet]
  | cons p rest ih =>
    obtain ⟨k', v'⟩ := p
    by_cases h : k' = k
    · simp [alInsert, alGet, h]
    · simp [alInsert, alGet, h, ih]

theorem alGet_insert_ne {κ ν : Type} [DecidableEq κ] (m : List (κ × ν)) (k k' : κ) (v : ν)
    (hne : k' ≠ k) : alGet (alInsert m k v) k' = alGet m k' := by
  have hne' : k ≠ k' := Ne.symm hne
  induction m with
  | nil => simp [alInsert, alGet, hne']
  | cons p rest ih =>
    obtain ⟨k0, v0⟩ := p
    by_cases h : k0 = k
    · subst h
      simp [alInsert, alGet, hne']
    · simp only [alInsert, if_neg h, alGet, ih]

theorem alGet_some_split {κ ν : Type} [DecidableEq κ] (m : List (κ × ν)) (k : κ) (v : ν)
    (h : alGet m k = some v) : ∃ m1 m2, m = m1 ++ (k, v) :: m2 := by
  induction m with
  | nil => simp [alGet] at h
  | cons p rest ih =>
    obtain ⟨k0, v0⟩ := p
    by_cases hk : k0 = k
    · subst hk
      simp [alGet] at h
      exact ⟨[], rest, by simp [h]⟩
    · simp [alGet, hk] at h
      obtain ⟨m1, m2, hm⟩ := ih h
      exact ⟨(k0, v0) :: m1, m2, by simp [hm]⟩

theorem headersToBytes_has_line (h : Headers) (k v : PyStr)
    (hget : alGet h k = some v) :
    ∃ b1 b2, headersToBytes h = b1 ++ headerLineBytes k v ++ b2 := by
  obtain ⟨m1, m2, hm⟩ := alGet_some_split h k v hget
  refine ⟨headersToBytes m1, headersToBytes m2, ?_⟩
  simp [hm, headersToBytes]

theorem mkHttpResponse_contentLengthOk (gz : Bytes → Bytes) (s : HTTPStatus)
    (h : Option Headers) (b : Option Bytes) (c : Option PyStr) :
    ContentLengthOk (mkHttpResponse gz s h b c) := by
  have hne : pstr ("Content-Length") ≠ pstr ("Content-Encoding") := by decide
  by_cases hc : compressionHasGzip c = true
  · simp only [ContentLengthOk, mkHttpResponse, hc, if_true]
    rw [alGet_insert_ne _ _ _ _ hne, alGet_insert_self]
  · simp only [ContentLengthOk, mkHttpResponse, hc, Bool.false_eq_true, if_false]
    rw [alGet_insert_self]
theorem connClose_contentLengthOk (r : HttpResponse) (hr : ContentLengthOk r) :
    ContentLengthOk
      ⟨r.status, alInsert r.headers (pstr ("Connection")) (pstr ("close")), r.body⟩ := by
  unfold ContentLengthOk at *
  rw [alGet_insert_ne _ _ _ _ (by decide)]
  exact hr

theorem from_str_ne_nil (raw : Bytes) (req : HttpRequest)
    (h : HttpRequest.from_str raw = some req) : raw ≠ [] := by
  intro hraw
  subst hraw
  simp [HttpRequest.from_str, splitlinesBytes] at h

theorem connStep_eq_of_parse_dispatch (gz : Bytes → Bytes) (directory : Option PyStr)
    (st : ServerState) (raw : Bytes) (req : HttpRequest) (ref : RespRef) (fs' : Fs)
    (hparse : HttpRequest.from_str raw = some req)
    (hdisp : dispatch gz directory st.fs req = Except.ok (ref, fs')) :
    connStep gz directory st raw =
      (if alGet req.headers (pstr ("Connection")) = some (pstr ("close")) then
        ((setConnCloseRef {st with fs := fs'} ref).1,
         IterResult.respond (respToBytes (setConnCloseRef {st with fs := fs'} ref).2) true)
      else
        ({st with fs := fs'},
         IterResult.respond (respToBytes (getRef {st with fs := fs'} ref))
           (decide (req.req_line.version ≠ pstr ("HTTP/1.1"))))) := by
  unfold connStep
  simp only [if_neg (from_str_ne_nil raw req hparse), hparse, hdisp]

theorem connStep_fatal_of_parse_none (gz : Bytes → Bytes) (directory : Option PyStr)
    (st : ServerState) (raw : Bytes) (hne : raw ≠ [])
    (hparse : HttpRequest.from_str raw = none) :
    connStep gz directory st raw = (st, IterResult.fatal) := by
  unfold connStep
  simp only [if_neg hne, hparse]

theorem connStep_fatal_of_dispatch_error (gz : Bytes → Bytes) (directory : Option PyStr)
    (st : ServerState) (raw : Bytes) (req : HttpRequest) (e : HandlerErr)
    (hparse : HttpRequest.from_str raw = some req)
    (hdisp : dispatch gz directory st.fs req = Except.error e) :
    connStep gz directory st raw = (st, IterResult.fatal) := by
  unfold connStep
  simp only [if_neg (from_str_ne_nil raw req hparse), hparse, hdisp]
theorem dispatch_fresh_contentLengthOk (gz : Bytes → Bytes) (directory : Option PyStr)
    (fs : Fs) (req : HttpRequest) (r : HttpResponse) (fs2 : Fs)
    (hd : dispatch gz directory fs req = Except.ok (RespRef.fresh r, fs2)) :
    ContentLengthOk r := by
  unfold dispatch user_agent_handler files_get_handler files_post_handler at hd
  repeat' split at hd
  all_goals simp_all [Except.map, echo_handler]
  all_goals (obtain ⟨hd1, hd2⟩ := hd; subst hd1; apply mkHttpResponse_contentLengthOk)
theorem getRef_contentLengthOk (st1 : ServerState) (ref : RespRef) (hok : StateOk st1)
    (hfresh : ∀ r, ref = RespRef.fresh r → ContentLengthOk r) :
    ContentLengthOk (getRef st1 ref) := by
  cases ref with
  | r200 => exact hok.1
  | r404 => exact hok.2.1
  | r201 => exact hok.2.2
  | fresh r => exact hfresh r rfl

theorem setConnClose_ok (st1 : ServerState) (ref : RespRef) (hok : StateOk st1)
    (hfresh : ∀ r, ref = RespRef.fresh r → ContentLengthOk r) :
    ContentLengthOk (setConnCloseRef st1 ref).2 ∧ StateOk (setConnCloseRef st1 ref).1 := by
  cases ref with
  | r200 =>
    exact ⟨connClose_contentLengthOk _ hok.1,
           connClose_contentLengthOk _ hok.1, hok.2.1, hok.2.2⟩
  | r404 =>
    exact ⟨connClose_contentLengthOk _ hok.2.1,
           hok.1, connClose_contentLengthOk _ hok.2.1, hok.2.2⟩
  | r201 =>
    exact ⟨connClose_contentLengthOk _ hok.2.2,
           hok.1, hok.2.1, connClose_contentLengthOk _ hok.2.2⟩
  | fresh r =>
    exact ⟨connClose_contentLengthOk _ (hfresh r rfl), hok⟩

theorem respToBytes_decomp (r : HttpResponse) (hcl : ContentLengthOk r) :
    (∃ u w, respToBytes r =
       u ++ headerLineBytes (pstr ("Content-Length")) ((Nat.repr r.body.length).data) ++ w) ∧
    (∃ pre, respToBytes r = pre ++ [13, 10] ++ r.body) := by
  constructor
  · obtain ⟨b1, b2, hline⟩ := headersToBytes_has_line r.headers _ _ hcl
    refine ⟨utf8Encode (pstr ("HTTP/1.1 ") ++ (Nat.repr r.status.code).data ++
              pstr (" ") ++ r.status.phrase) ++ [13, 10] ++ b1,
            b2 ++ [13, 10] ++ r.body, ?_⟩
    simp [respToBytes, hline]
  · refine ⟨utf8Encode (pstr ("HTTP/1.1 ") ++ (Nat.repr r.status.code).data ++
              pstr (" ") ++ r.status.phrase) ++ [13, 10] ++ headersToBytes r.headers, ?_⟩
    simp [respToBytes]
/-- C1: every response the connection loop writes — static 200/404/201,
echo, user-agent, file responses, gzip-compressed or not, and with the
`Connection: close` header mutation applied or not — serializes with a
`Content-Length` header whose value is the decimal byte length of the body
bytes that follow the blank line, even when a handler pre-populated
`Content-Length` with the uncompressed length before compression was
applied; and the singleton invariant is preserved. -/
theorem content_length_always_matches_body (gz : Bytes → Bytes) (directory : Option PyStr)
    (st : ServerState) (raw : Bytes) (st' : ServerState) (out : Bytes) (close : Bool)
    (hok : StateOk st)
    (hstep : connStep gz directory st raw = (st', IterResult.respond out close)) :
    (∃ r : HttpResponse,
        out = respToBytes r ∧
        alGet r.headers (pstr ("Content-Length")) = some ((Nat.repr r.body.length).data) ∧
        (∃ u w, out = u ++ headerLineBytes (pstr ("Content-Length"))
                        ((Nat.repr r.body.length).data) ++ w) ∧
        (∃ pre, out = pre ++ [13, 10] ++ r.body)) ∧
    StateOk st' := by
  by_cases hraw : raw = []
  · subst hraw
    simp [connStep] at hstep
  · cases hparse : HttpRequest.from_str raw with
    | none =>
      rw [connStep_fatal_of_parse_none gz directory st raw hraw hparse] at hstep
      simp at hstep
    | some req =>
      cases hdisp : dispatch gz directory st.fs req with
      | error e =>
        rw [connStep_fatal_of_dispatch_error gz directory st raw req e hparse hdisp] at hstep
        simp at hstep
      | ok p =>
        obtain ⟨ref, fs'⟩ := p
        rw [connStep_eq_of_parse_dispatch gz directory st raw req ref fs' hparse hdisp] at hstep
        have hfresh : ∀ r, ref = RespRef.fresh r → ContentLengthOk r := by
          intro r hr
          subst hr
          exact dispatch_fresh_contentLengthOk gz directory st.fs req r fs' hdisp
        have hok1 : StateOk {st with fs := fs'} := hok
        by_cases hconn : alGet req.headers (pstr ("Connection")) = some (pstr ("close"))
        · rw [if_pos hconn, Prod.mk.injEq] at hstep
          obtain ⟨hst, hit⟩ := hstep
          rw [IterResult.respond.injEq] at hit
          obtain ⟨hout, hclose⟩ := hit
          obtain ⟨hcl2, hok2⟩ := setConnClose_ok {st with fs := fs'} ref hok1 hfresh
          subst hst
          refine ⟨⟨(setConnCloseRef {st with fs := fs'} ref).2, hout.symm, hcl2, ?_, ?_⟩, hok2⟩
          · obtain ⟨u, w, hd⟩ := (respToBytes_decomp _ hcl2).1
            exact ⟨u, w, by rw [← hout, hd]⟩
          · obtain ⟨pre, hd⟩ := (respToBytes_decomp _ hcl2).2
            exact ⟨pre, by rw [← hout, hd]⟩
        · rw [if_neg hconn, Prod.mk.injEq] at hstep
          obtain ⟨hst, hit⟩ := hstep
          rw [IterResult.respond.injEq] at hit
          obtain ⟨hout, hclose⟩ := hit
          have hcl2 : ContentLengthOk (getRef {st with fs := fs'} ref) :=
            getRef_contentLengthOk _ ref hok1 hfresh
          subst hst
          refine ⟨⟨getRef {st with fs := fs'} ref, hout.symm, hcl2, ?_, ?_⟩, hok1⟩
          · obtain ⟨u, w, hd⟩ := (respToBytes_decomp _ hcl2).1
            exact ⟨u, w, by rw [← hout, hd]⟩
          · obtain ⟨pre, hd⟩ := (respToBytes_decomp _ hcl2).2
            exact ⟨pre, by rw [← hout, hd]⟩
/-- Witness for C1 at a concrete echo request on the initial state. -/
theorem content_length_always_matches_body_witness :
    (∃ r : HttpResponse,
        respToBytes (echo_handler (fun b => b) (utf8Encode (pstr ("abc")))
            [(pstr ("Host"), pstr ("a"))]) = respToBytes r ∧
        alGet r.headers (pstr ("Content-Length")) = some ((Nat.repr r.body.length).data) ∧
        (∃ u w, respToBytes (echo_handler (fun b => b) (utf8Encode (pstr ("abc")))
            [(pstr ("Host"), pstr ("a"))]) =
          u ++ headerLineBytes (pstr ("Content-Length")) ((Nat.repr r.body.length).data) ++ w) ∧
        (∃ pre, respToBytes (echo_handler (fun b => b) (utf8Encode (pstr ("abc")))
            [(pstr ("Host"), pstr ("a"))]) = pre ++ [13, 10] ++ r.body)) ∧
    StateOk (initState []) :=
  content_length_always_matches_body (fun b => b) none (initState [])
    (utf8Encode (pstr ("GET /echo/abc HTTP/1.1\r\nHost: a\r\n\r\n")))
    (initState [])
    (respToBytes (echo_handler (fun b => b) (utf8Encode (pstr ("abc")))
        [(pstr ("Host"), pstr ("a"))]))
    false
    (by unfold StateOk ContentLengthOk; decide)
    (by decide)

/-- C4: for every request that parses and dispatches successfully and whose
`Connection` header value is exactly `close`, the loop iteration sets
`Connection: close` on the response, performs its single write of that
serialized response, and transitions to CLOSING (the close flag is `true`,
so no further read happens on the connection). -/
theorem connection_close_single_write_then_close (gz : Bytes → Bytes)
    (directory : Option PyStr) (st : ServerState) (raw : Bytes) (req : HttpRequest)
    (st' : ServerState) (res : IterResult)
    (hparse : HttpRequest.from_str raw = some req)
    (hconn : alGet req.headers (pstr ("Connection")) = some (pstr ("close")))
    (hstep : connStep gz directory st raw = (st', res))
    (hnf : res ≠ IterResult.fatal) :
    ∃ r : HttpResponse,
      res = IterResult.respond (respToBytes r) true ∧
      alGet r.headers (pstr ("Connection")) = some (pstr ("close")) := by
  cases hdisp : dispatch gz directory st.fs req with
  | error e =>
    rw [connStep_fatal_of_dispatch_error gz directory st raw req e hparse hdisp] at hstep
    rw [Prod.mk.injEq] at hstep
    exact absurd hstep.2.symm hnf
  | ok p =>
    obtain ⟨ref, fs'⟩ := p
    rw [connStep_eq_of_parse_dispatch gz directory st raw req ref fs' hparse hdisp,
        if_pos hconn, Prod.mk.injEq] at hstep
    refine ⟨(setConnCloseRef {st with fs := fs'} ref).2, hstep.2.symm, ?_⟩
    cases ref <;> simp [setConnCloseRef, alGet_insert_self]

/-- Witness for C4 at a concrete 404 request with `Connection: close`. -/
theorem connection_close_single_write_then_close_witness :
    ∃ r : HttpResponse,
      (connStep (fun b => b) none (initState [])
        (utf8Encode (pstr ("GET /nope HTTP/1.1\r\nConnection: close\r\n\r\n")))).2 =
        IterResult.respond (respToBytes r) true ∧
      alGet r.headers (pstr ("Connection")) = some (pstr ("close")) :=
  connection_close_single_write_then_close (fun b => b) none (initState [])
    (utf8Encode (pstr ("GET /nope HTTP/1.1\r\nConnection: close\r\n\r\n")))
    ⟨⟨pstr ("GET"), pstr ("/nope"), pstr ("HTTP/1.1")⟩,
     [(pstr ("Connection"), pstr ("close"))], none⟩
    (connStep (fun b => b) none (initState [])
      (utf8Encode (pstr ("GET /nope HTTP/1.1\r\nConnection: close\r\n\r\n")))).1
    (connStep (fun b => b) none (initState [])
      (utf8Encode (pstr ("GET /nope HTTP/1.1\r\nConnection: close\r\n\r\n")))).2
    (by decide) (by decide) rfl (by decide)
/-- C2 is false of the code: the static responses are NOT immutable.
A first request to an unmatched path with `Connection: close` mutates the
shared `RESP_404` singleton in place; a second request (here on a fresh
iteration, as on any other connection) without any `Connection` header
then receives a serialized response that carries `Connection: close`,
while the loop keeps the connection open (close flag `false`). -/
theorem static_responses_mutated_counterexample :
    (HttpRequest.from_str
        (utf8Encode (pstr ("GET /nope HTTP/1.1\r\nHost: a\r\n\r\n")))).bind
      (fun q => alGet q.headers (pstr ("Connection"))) = none ∧
    alGet ((connStep (fun b => b) none (initState [])
        (utf8Encode (pstr ("GET /nope HTTP/1.1\r\nConnection: close\r\n\r\n")))).1.resp404.headers)
      (pstr ("Connection")) = some (pstr ("close")) ∧
    (connStep (fun b => b) none
      ((connStep (fun b => b) none (initState [])
        (utf8Encode (pstr ("GET /nope HTTP/1.1\r\nConnection: close\r\n\r\n")))).1)
      (utf8Encode (pstr ("GET /nope HTTP/1.1\r\nHost: a\r\n\r\n")))).2 =
      IterResult.respond
        (respToBytes
          ⟨status404, [(pstr ("Content-Length"), pstr ("0")),
                       (pstr ("Connection"), pstr ("close"))], []⟩)
        false := by
  refine ⟨by decide, by decide, by decide⟩
theorem splitOnChar_no_sep (sep : Char) (s : PyStr) (h : ∀ c ∈ s, c ≠ sep) :
    splitOnChar sep s = [s] := by
  induction s with
  | nil => rfl
  | cons c rest ih =>
    have hc : c ≠ sep := h c (by simp)
    have hr : splitOnChar sep rest = [rest] := ih (fun x hx => h x (by simp [hx]))
    simp [splitOnChar, hc, hr]

theorem split_echo_path (s : PyStr) (hnos : ¬ '/' ∈ s) :
    splitOnChar '/' (pstr ("/echo/") ++ s) = [[], pstr ("echo"), s] := by
  have h1 : splitOnChar '/' s = [s] :=
    splitOnChar_no_sep '/' s (fun c hc he => hnos (he ▸ hc))
  simp [pstr, splitOnChar, h1]

theorem mkHttpResponse_status (gz : Bytes → Bytes) (s : HTTPStatus)
    (h : Option Headers) (b : Option Bytes) (c : Option PyStr) :
    (mkHttpResponse gz s h b c).status = s := by
  unfold mkHttpResponse
  split <;> rfl

theorem echo_handler_gzip (gz : Bytes → Bytes) (text : Bytes) (h : Headers)
    (hc : compressionHasGzip (alGet h (pstr ("Accept-Encoding"))) = true) :
    (echo_handler gz text h).body = gz text ∧
    alGet (echo_handler gz text h).headers (pstr ("Content-Encoding")) =
      some (pstr ("gzip")) ∧
    alGet (echo_handler gz text h).headers (pstr ("Content-Length")) =
      some ((Nat.repr (gz text).length).data) := by
  have h1 : pstr ("Content-Type") ≠ pstr ("Content-Length") := by decide
  have h2 : pstr ("Content-Type") ≠ pstr ("Content-Encoding")  := by decide
  have h3 : pstr ("Content-Length") ≠ pstr ("Content-Encoding") := by decide
  simp [echo_handler, mkHttpResponse, hc, alInsert, alGet, h1, h2, h3]

theorem echo_handler_plain (gz : Bytes → Bytes) (text : Bytes) (h : Headers)
    (hc : compressionHasGzip (alGet h (pstr ("Accept-Encoding"))) = false) :
    (echo_handler gz text h).body = text ∧
    alGet (echo_handler gz text h).headers (pstr ("Content-Encoding")) = none ∧
    alGet (echo_handler gz text h).headers (pstr ("Content-Length")) =
      some ((Nat.repr text.length).data) := by
  have h1 : pstr ("Content-Type") ≠ pstr ("Content-Length") := by decide
  have h2 : pstr ("Content-Type") ≠ pstr ("Content-Encoding") := by decide
  have h3 : pstr ("Content-Length") ≠ pstr ("Content-Encoding") := by decide
  simp [echo_handler, mkHttpResponse, hc, alInsert, alGet, h1, h2, h3]
theorem dispatch_echo (gz : Bytes → Bytes) (directory : Option PyStr) (fs : Fs)
    (req : HttpRequest) (s : PyStr)
    (hsegs : (splitOnChar '/' req.req_line.path).drop 1 = [pstr ("echo"), s]) :
    dispatch gz directory fs req =
      Except.ok (RespRef.fresh (echo_handler gz (utf8Encode s) req.headers), fs) := by
  unfold dispatch
  rw [hsegs]
  simp
/-- C3: for every request whose path is `/echo/<s>` (single segment), the
written response is 200; when the request's `Accept-Encoding` value
contains the substring `gzip` the body is the gzip compression of the
bytes of `<s>`, `Content-Encoding: gzip` is present and `Content-Length`
is the compressed length; otherwise the body is exactly the bytes of
`<s>`, `Content-Length` is their count and no `Content-Encoding` header
exists. -/
theorem echo_route_gzip_negotiation (gz : Bytes → Bytes) (directory : Option PyStr)
    (st : ServerState) (raw : Bytes) (req : HttpRequest) (s : PyStr)
    (st' : ServerState) (res : IterResult)
    (hparse : HttpRequest.from_str raw = some req)
    (hpath : req.req_line.path = pstr ("/echo/") ++ s)
    (hnos : ¬ '/' ∈ s)
    (hstep : connStep gz directory st raw = (st', res)) :
    ∃ (r : HttpResponse) (out : Bytes) (close : Bool),
      res = IterResult.respond out close ∧
      out = respToBytes r ∧
      r.status = status200 ∧
      (compressionHasGzip (alGet req.headers (pstr ("Accept-Encoding"))) = true →
        r.body = gz (utf8Encode s) ∧
        alGet r.headers (pstr ("Content-Encoding")) = some (pstr ("gzip")) ∧
        alGet r.headers (pstr ("Content-Length")) =
          some ((Nat.repr (gz (utf8Encode s)).length).data)) ∧
      (compressionHasGzip (alGet req.headers (pstr ("Accept-Encoding"))) = false →
        r.body = utf8Encode s ∧
        alGet r.headers (pstr ("Content-Encoding")) = none ∧
        alGet r.headers (pstr ("Content-Length")) =
          some ((Nat.repr (utf8Encode s).length).data)) := by
  have hsegs : (splitOnChar '/' req.req_line.path).drop 1 = [pstr ("echo"), s] := by
    rw [hpath, split_echo_path s hnos]
    rfl
  have hdisp := dispatch_echo gz directory st.fs req s hsegs
  rw [connStep_eq_of_parse_dispatch gz directory st raw req _ _ hparse hdisp] at hstep
  have hne1 : pstr ("Content-Encoding") ≠ pstr ("Connection") := by decide
  have hne2 : pstr ("Content-Length") ≠ pstr ("Connection") := by decide
  set E := echo_handler gz (utf8Encode s) req.headers with hE
  by_cases hconn : alGet req.headers (pstr ("Connection")) = some (pstr ("close"))
  · rw [if_pos hconn, Prod.mk.injEq] at hstep
    refine ⟨⟨E.status, alInsert E.headers (pstr ("Connection")) (pstr ("close")), E.body⟩,
            _, true, hstep.2.symm, rfl, ?_, ?_, ?_⟩
    · exact mkHttpResponse_status gz status200 _ _ _
    · intro hc
      obtain ⟨hb, hce, hcl⟩ := echo_handler_gzip gz (utf8Encode s) req.headers hc
      exact ⟨hb, by rw [alGet_insert_ne _ _ _ _ hne1]; exact hce,
             by rw [alGet_insert_ne _ _ _ _ hne2]; exact hcl⟩
    · intro hc
      obtain ⟨hb, hce, hcl⟩ := echo_handler_plain gz (utf8Encode s) req.headers hc
      exact ⟨hb, by rw [alGet_insert_ne _ _ _ _ hne1]; exact hce,
             by rw [alGet_insert_ne _ _ _ _ hne2]; exact hcl⟩
  · rw [if_neg hconn, Prod.mk.injEq] at hstep
    refine ⟨E, _, decide (req.req_line.version ≠ pstr ("HTTP/1.1")),
            hstep.2.symm, rfl, ?_, ?_, ?_⟩
    · exact mkHttpResponse_status gz status200 _ _ _
    · intro hc
      exact echo_handler_gzip gz (utf8Encode s) req.headers hc
    · intro hc
      exact echo_handler_plain gz (utf8Encode s) req.headers hc
/-- Witness for C3 at a concrete gzip-negotiated echo request. -/
theorem echo_route_gzip_negotiation_witness :
    ∃ (r : HttpResponse) (out : Bytes) (close : Bool),
      (connStep (fun b => 0 :: b) none (initState [])
        (utf8Encode (pstr ("GET /echo/abc HTTP/1.1\r\nAccept-Encoding: gzip\r\n\r\n")))).2 =
        IterResult.respond out close ∧
      out = respToBytes r ∧
      r.status = status200 ∧
      (compressionHasGzip
          (alGet [(pstr ("Accept-Encoding"), pstr ("gzip"))] (pstr ("Accept-Encoding"))) = true →
        r.body = 0 :: utf8Encode (pstr ("abc")) ∧
        alGet r.headers (pstr ("Content-Encoding")) = some (pstr ("gzip")) ∧
        alGet r.headers (pstr ("Content-Length")) =
          some ((Nat.repr (0 :: utf8Encode (pstr ("abc"))).length).data)) ∧
      (compressionHasGzip
          (alGet [(pstr ("Accept-Encoding"), pstr ("gzip"))] (pstr ("Accept-Encoding"))) = false →
        r.body = utf8Encode (pstr ("abc")) ∧
        alGet r.headers (pstr ("Content-Encoding")) = none ∧
        alGet r.headers (pstr ("Content-Length")) =
          some ((Nat.repr (utf8Encode (pstr ("abc"))).length).data)) :=
  echo_route_gzip_negotiation (fun b => 0 :: b) none (initState [])
    (utf8Encode (pstr ("GET /echo/abc HTTP/1.1\r\nAccept-Encoding: gzip\r\n\r\n")))
    ⟨⟨pstr ("GET"), pstr ("/echo/abc"), pstr ("HTTP/1.1")⟩,
     [(pstr ("Accept-Encoding"), pstr ("gzip"))], none⟩
    (pstr ("abc"))
    (connStep (fun b => 0 :: b) none (initState [])
      (utf8Encode (pstr ("GET /echo/abc HTTP/1.1\r\nAccept-Encoding: gzip\r\n\r\n")))).1
    (connStep (fun b => 0 :: b) none (initState [])
      (utf8Encode (pstr ("GET /echo/abc HTTP/1.1\r\nAccept-Encoding: gzip\r\n\r\n")))).2
    (by decide) (by decide) (by decide) rfl
/-- C5: `HttpReqLine.from_str` fails exactly when splitting the stripped
request-line text on single spaces yields a token count other than three;
and when the first line of a received buffer fails this way during
connection handling, the iteration writes nothing and the connection
closes (fatal). -/
theorem malformed_request_line_iff_and_fatal :
    (∀ text : PyStr,
      HttpReqLine.from_str text = none ↔
        (splitOnChar ' ' (pyStrip strIsSpace text)).length ≠ 3) ∧
    (∀ (gz : Bytes → Bytes) (directory : Option PyStr) (st : ServerState)
       (raw first : Bytes) (rest : List Bytes) (fl : PyStr),
      splitlinesBytes raw = first :: rest →
      rest ≠ [] →
      utf8Decode first = some fl →
      HttpReqLine.from_str fl = none →
      connStep gz directory st raw = (st, IterResult.fatal)) := by
  constructor
  · intro text
    unfold HttpReqLine.from_str
    generalize splitOnChar ' ' (pyStrip strIsSpace text) = l
    rcases l with _ | ⟨a, _ | ⟨b, _ | ⟨c, _ | ⟨d, t⟩⟩⟩⟩ <;> simp
  · intro gz directory st raw first rest fl hsplit hrest hdec hnone
    have hne : raw ≠ [] := by
      intro h
      subst h
      simp [splitlinesBytes] at hsplit
    apply connStep_fatal_of_parse_none gz directory st raw hne
    cases rest with
    | nil => exact absurd rfl hrest
    | cons x xs =>
      unfold HttpRequest.from_str
      rw [hsplit]
      simp [hdec, hnone]

/-- Witness for C5: the spec's own example, a request line with only two
tokens (`GET /` with no version), is fatal with no bytes written. -/
theorem malformed_request_line_iff_and_fatal_witness :
    connStep (fun b => b) none (initState [])
      (utf8Encode (pstr ("GET /\r\nHost: a\r\n\r\n"))) =
      (initState [], IterResult.fatal) :=
  malformed_request_line_iff_and_fatal.2 (fun b => b) none (initState [])
    (utf8Encode (pstr ("GET /\r\nHost: a\r\n\r\n")))
    (utf8Encode (pstr ("GET /")))
    [utf8Encode (pstr ("Host: a")), []]
    (pstr ("GET /")) (by decide) (by decide) (by decide) (by decide)
theorem mkHttpRequest_req_line (rl : HttpReqLine) (h : Headers) (b : Option Bytes) :
    (mkHttpRequest rl h b).req_line = rl := rfl

theorem mkHttpRequest_body_getD (rl : HttpReqLine) (h : Headers) (B : Bytes)
    (hB : B = [] ∨ pyStrip byteIsSpace B ≠ []) :
    (mkHttpRequest rl h (some B)).body.getD [] = B := by
  rcases hB with hB | hB
  · subst hB
    rfl
  · have hbody : (mkHttpRequest rl h (some B)).body =
        if (pyStrip byteIsSpace B).length = 0 then none else some B := rfl
    rw [hbody, if_neg (fun hlen => hB (List.length_eq_zero.mp hlen))]
    rfl

theorem dispatch_files_post (gz : Bytes → Bytes) (directory : Option PyStr) (fs : Fs)
    (req : HttpRequest) (t : PyStr)
    (hsegs : (splitOnChar '/' req.req_line.path).drop 1 = [pstr ("files"), t])
    (hm : req.req_line.method = pstr ("POST")) :
    dispatch gz directory fs req = files_post_handler directory fs t (req.body.getD []) := by
  unfold dispatch
  rw [hsegs]
  have hfe : pstr ("files") ≠ pstr ("echo") := by decide
  have hpg : pstr ("POST") ≠ pstr ("GET") := by decide
  simp [hm, hfe, hpg]

theorem dispatch_files_get (gz : Bytes → Bytes) (directory : Option PyStr) (fs : Fs)
    (req : HttpRequest) (t : PyStr)
    (hsegs : (splitOnChar '/' req.req_line.path).drop 1 = [pstr ("files"), t])
    (hm : req.req_line.method = pstr ("GET")) :
    dispatch gz directory fs req =
      Except.ok (files_get_handler gz directory fs t req.headers, fs) := by
  unfold dispatch
  rw [hsegs]
  have hfe : pstr ("files") ≠ pstr ("echo") := by decide
  simp [hm, hfe]

theorem mkHttpResponse_body_plain (gz : Bytes → Bytes) (s : HTTPStatus)
    (h : Option Headers) (B : Bytes) (c : Option PyStr)
    (hc : compressionHasGzip c = false) :
    (mkHttpResponse gz s h (some B) c).body = B := by
  unfold mkHttpResponse
  simp [hc]
/-- C6 as stated is false of the code: a whitespace-only non-empty body is
normalized to absent by `HttpRequest.__init__`, so `POST /files/foo.txt`
with body `b" "` stores `b""`, and the following GET returns an empty
body, not the original byte string. -/
theorem files_post_get_roundtrip_counterexample :
    (match dispatch (fun b => b) (some (pstr ("d"))) []
        (mkHttpRequest ⟨pstr ("POST"), pstr ("/files/foo.txt"), pstr ("HTTP/1.1")⟩ []
          (some [32])) with
     | Except.ok (RespRef.r201, f) => some f
     | _ => none) = some [(pstr ("d") ++ pstr ("foo.txt"), [])] ∧
    (match dispatch (fun b => b) (some (pstr ("d"))) [(pstr ("d") ++ pstr ("foo.txt"), [])]
        (mkHttpRequest ⟨pstr ("GET"), pstr ("/files/foo.txt"), pstr ("HTTP/1.1")⟩ [] none) with
     | Except.ok (RespRef.fresh r, _) => some (r.status, r.body)
     | _ => none) = some (status200, ([] : Bytes)) ∧
    ([] : Bytes) ≠ [32] := by
  refine ⟨by decide, by decide, by decide⟩

/-- C6 amended: for every byte string `B` that is empty or contains at
least one non-ASCII-whitespace byte, `POST /files/foo.txt` with body `B`
yields 201 and a following `GET /files/foo.txt` whose request does not
negotiate gzip yields a fresh 200 response whose body is exactly `B`
(for whitespace-only non-empty `B` the stored file is empty instead). -/
theorem files_post_get_roundtrip_amended (gz : Bytes → Bytes) (d : PyStr) (fs : Fs)
    (B : Bytes) (h1 h2 : Headers)
    (hB : B = [] ∨ pyStrip byteIsSpace B ≠ [])
    (hAE : compressionHasGzip (alGet h2 (pstr ("Accept-Encoding"))) = false) :
    ∃ (fs' : Fs) (r : HttpResponse),
      dispatch gz (some d) fs
        (mkHttpRequest ⟨pstr ("POST"), pstr ("/files/foo.txt"), pstr ("HTTP/1.1")⟩ h1
          (some B)) = Except.ok (RespRef.r201, fs') ∧
      dispatch gz (some d) fs'
        (mkHttpRequest ⟨pstr ("GET"), pstr ("/files/foo.txt"), pstr ("HTTP/1.1")⟩ h2
          none) = Except.ok (RespRef.fresh r, fs') ∧
      r.status = status200 ∧
      r.body = B := by
  have hsegs : (splitOnChar '/' (pstr ("/files/foo.txt"))).drop 1 =
      [pstr ("files"), pstr ("foo.txt")] := by decide
  refine ⟨alInsert fs (d ++ pstr ("foo.txt")) B,
          mkHttpResponse gz status200
            (some [(pstr ("Content-Type"), pstr ("application/octet-stream")),
                   (pstr ("Content-Length"), (Nat.repr B.length).data)])
            (some B) (alGet h2 (pstr ("Accept-Encoding"))), ?_, ?_, ?_, ?_⟩
  · rw [dispatch_files_post gz (some d) fs _ (pstr ("foo.txt")) hsegs rfl,
        mkHttpRequest_body_getD _ _ _ hB]
    rfl
  · rw [dispatch_files_get gz (some d) _ _ (pstr ("foo.txt")) hsegs rfl]
    simp only [files_get_handler, alGet_insert_self]
    rfl
  · exact mkHttpResponse_status gz status200 _ _ _
  · exact mkHttpResponse_body_plain gz status200 _ B _ hAE

/-- Witness for the amended C6 at `B = "hello"`. -/
theorem files_post_get_roundtrip_amended_witness :
    ∃ (fs' : Fs) (r : HttpResponse),
      dispatch (fun b => b) (some (pstr ("d"))) []
        (mkHttpRequest ⟨pstr ("POST"), pstr ("/files/foo.txt"), pstr ("HTTP/1.1")⟩ []
          (some (utf8Encode (pstr ("hello"))))) = Except.ok (RespRef.r201, fs') ∧
      dispatch (fun b => b) (some (pstr ("d"))) fs'
        (mkHttpRequest ⟨pstr ("GET"), pstr ("/files/foo.txt"), pstr ("HTTP/1.1")⟩ []
          none) = Except.ok (RespRef.fresh r, fs') ∧
      r.status = status200 ∧
      r.body = utf8Encode (pstr ("hello")) :=
  files_post_get_roundtrip_amended (fun b => b) (pstr ("d")) []
    (utf8Encode (pstr ("hello"))) [] [] (by decide) (by decide)
theorem dispatch_user_agent (gz : Bytes → Bytes) (directory : Option PyStr) (fs : Fs)
    (req : HttpRequest)
    (hsegs : (splitOnChar '/' req.req_line.path).drop 1 = [pstr ("user-agent")]) :
    dispatch gz directory fs req =
      (user_agent_handler req).map (fun r => (RespRef.fresh r, fs)) := by
  unfold dispatch
  rw [hsegs]
  have h1 : pstr ("user-agent") ≠ pstr ("") := by decide
  simp [h1]

/-- C7: for every request routed to `/user-agent`: when a `User-Agent`
header with value `v` is present the iteration writes a 200 response whose
body is exactly the bytes of `v`; when it is absent the handler failure is
caught at the connection level and the iteration ends the connection with
nothing written (fatal). -/
theorem user_agent_route_reflects_or_fatal (gz : Bytes → Bytes)
    (directory : Option PyStr) (st : ServerState) (raw : Bytes) (req : HttpRequest)
    (st' : ServerState) (res : IterResult)
    (hparse : HttpRequest.from_str raw = some req)
    (hsegs : (splitOnChar '/' req.req_line.path).drop 1 = [pstr ("user-agent")])
    (hstep : connStep gz directory st raw = (st', res)) :
    (∀ v : PyStr, alGet req.headers (pstr ("User-Agent")) = some v →
      ∃ (r : HttpResponse) (out : Bytes) (close : Bool),
        res = IterResult.respond out close ∧
        out = respToBytes r ∧
        r.status = status200 ∧
        r.body = utf8Encode v) ∧
    (alGet req.headers (pstr ("User-Agent")) = none →
      st' = st ∧ res = IterResult.fatal) := by
  have hdisp0 := dispatch_user_agent gz directory st.fs req hsegs
  constructor
  · intro v hua
    rw [show user_agent_handler req = Except.ok (mkHttpResponse (fun b => b) status200
          (some [(pstr ("Content-Type"), pstr ("text/plain")),
                 (pstr ("Content-Length"), (Nat.repr v.length).data)])
          (some (utf8Encode v)) none) from by unfold user_agent_handler; rw [hua]] at hdisp0
    simp only [Except.map] at hdisp0
    rw [connStep_eq_of_parse_dispatch gz directory st raw req _ _ hparse hdisp0] at hstep
    set U := mkHttpResponse (fun b => b) status200
          (some [(pstr ("Content-Type"), pstr ("text/plain")),
                 (pstr ("Content-Length"), (Nat.repr v.length).data)])
          (some (utf8Encode v)) none with hU
    by_cases hconn : alGet req.headers (pstr ("Connection")) = some (pstr ("close"))
    · rw [if_pos hconn, Prod.mk.injEq] at hstep
      refine ⟨⟨U.status, alInsert U.headers (pstr ("Connection")) (pstr ("close")), U.body⟩,
              _, true, hstep.2.symm, rfl, ?_, ?_⟩
      · exact mkHttpResponse_status (fun b => b) status200 _ _ _
      · exact mkHttpResponse_body_plain (fun b => b) status200 _ _ _ rfl
    · rw [if_neg hconn, Prod.mk.injEq] at hstep
      refine ⟨U, _, decide (req.req_line.version ≠ pstr ("HTTP/1.1")),
              hstep.2.symm, rfl, ?_, ?_⟩
      · exact mkHttpResponse_status (fun b => b) status200 _ _ _
      · exact mkHttpResponse_body_plain (fun b => b) status200 _ _ _ rfl
  · intro hua
    rw [show user_agent_handler req = Except.error HandlerErr.missingUserAgent from
          by unfold user_agent_handler; rw [hua]] at hdisp0
    simp only [Except.map] at hdisp0
    rw [connStep_fatal_of_dispatch_error gz directory st raw req
          HandlerErr.missingUserAgent hparse hdisp0, Prod.mk.injEq] at hstep
    exact ⟨hstep.1.symm, hstep.2.symm⟩

/-- Witness for C7 at the spec's example request, exercising both the
present-header conclusion and (vacuously) the absent-header one. -/
theorem user_agent_route_reflects_or_fatal_witness :
    (∀ v : PyStr,
      alGet [(pstr ("User-Agent"), pstr ("test-agent/1.0"))] (pstr ("User-Agent")) = some v →
      ∃ (r : HttpResponse) (out : Bytes) (close : Bool),
        (connStep (fun b => b) none (initState [])
          (utf8Encode (pstr ("GET /user-agent HTTP/1.1\r\nUser-Agent: test-agent/1.0\r\n\r\n")))).2 =
          IterResult.respond out close ∧
        out = respToBytes r ∧
        r.status = status200 ∧
        r.body = utf8Encode v) ∧
    (alGet [(pstr ("User-Agent"), pstr ("test-agent/1.0"))] (pstr ("User-Agent")) = none →
      (connStep (fun b => b) none (initState [])
        (utf8Encode (pstr ("GET /user-agent HTTP/1.1\r\nUser-Agent: test-agent/1.0\r\n\r\n")))).1 =
        initState [] ∧
      (connStep (fun b => b) none (initState [])
        (utf8Encode (pstr ("GET /user-agent HTTP/1.1\r\nUser-Agent: test-agent/1.0\r\n\r\n")))).2 =
        IterResult.fatal) :=
  user_agent_route_reflects_or_fatal (fun b => b) none (initState [])
    (utf8Encode (pstr ("GET /user-agent HTTP/1.1\r\nUser-Agent: test-agent/1.0\r\n\r\n")))
    ⟨⟨pstr ("GET"), pstr ("/user-agent"), pstr ("HTTP/1.1")⟩,
     [(pstr ("User-Agent"), pstr ("test-agent/1.0"))], none⟩
    (connStep (fun b => b) none (initState [])
      (utf8Encode (pstr ("GET /user-agent HTTP/1.1\r\nUser-Agent: test-agent/1.0\r\n\r\n")))).1
    (connStep (fun b => b) none (initState [])
      (utf8Encode (pstr ("GET /user-agent HTTP/1.1\r\nUser-Agent: test-agent/1.0\r\n\r\n")))).2
    (by decide) (by decide) rfl
theorem find?_append_or {α : Type} (p : α → Bool) (l1 l2 : List α) :
    (l1 ++ l2).find? p =
      match l1.find? p with
      | some x => some x
      | none => l2.find? p := by
  induction l1 with
  | nil => simp
  | cons a t ih =>
    by_cases h : p a
    · simp [List.find?_cons, h]
    · simp [List.find?_cons, h, ih]

theorem headersFromListAux_characterization (lines : List Bytes) :
    ∀ acc : Headers, (∀ l ∈ lines, (utf8Decode l).isSome = true) →
    ∃ h : Headers, headersFromListAux acc lines = some h ∧
      ∀ k : PyStr, alGet h k =
        match (lines.filterMap specLineKV).reverse.find? (fun p => decide (p.1 = k)) with
        | some p => some p.2
        | none => alGet acc k := by
  induction lines with
  | nil =>
    intro acc _
    exact ⟨acc, rfl, fun k => by simp⟩
  | cons l rest ih =>
    intro acc hdec
    have hl : (utf8Decode l).isSome = true := hdec l (by simp)
    obtain ⟨s, hs⟩ := Option.isSome_iff_exists.mp hl
    have hrest : ∀ x ∈ rest, (utf8Decode x).isSome = true :=
      fun x hx => hdec x (by simp [hx])
    cases hsplit : splitOnceChar ':' s with
    | none =>
      have hkv : specLineKV l = none := by simp [specLineKV, hs, hsplit]
      have haux : headersFromListAux acc (l :: rest) = headersFromListAux acc rest := by
        rw [headersFromListAux.eq_def]
        simp only [hs, hsplit]
      obtain ⟨h, hh, hchar⟩ := ih acc hrest
      refine ⟨h, by rw [haux, hh], ?_⟩
      intro k
      rw [hchar k, List.filterMap_cons, hkv]
    | some kv =>
      obtain ⟨k0, v0⟩ := kv
      have hkv : specLineKV l = some (pyStrip strIsSpace k0, pyStrip strIsSpace v0) := by
        simp [specLineKV, hs, hsplit]
      have haux : headersFromListAux acc (l :: rest) =
          headersFromListAux
            (alInsert acc (pyStrip strIsSpace k0) (pyStrip strIsSpace v0)) rest := by
        rw [headersFromListAux.eq_def]
        simp only [hs, hsplit]
      obtain ⟨h, hh, hchar⟩ :=
        ih (alInsert acc (pyStrip strIsSpace k0) (pyStrip strIsSpace v0)) hrest
      refine ⟨h, by rw [haux, hh], ?_⟩
      intro k
      rw [hchar k, List.filterMap_cons, hkv, List.reverse_cons, find?_append_or]
      cases hfind : (rest.filterMap specLineKV).reverse.find? (fun p => decide (p.1 = k)) with
      | some p => rfl
      | none =>
        by_cases hk : pyStrip strIsSpace k0 = k
        · subst hk
          simp [List.find?_cons, alGet_insert_self]
        · simp [List.find?_cons, hk,
                alGet_insert_ne acc (pyStrip strIsSpace k0) k
                  (pyStrip strIsSpace v0) (fun he => hk he.symm)]
/-- C8 is false as stated: `HttpHeaders.from_list` does fail on a raw
header line that is not valid UTF-8, because the line is decoded before
the colon test. The line `[255]` contains no colon yet is not silently
dropped — the call raises `UnicodeDecodeError` (modelled as `none`). -/
theorem headers_from_list_failure_counterexample :
    ¬ 58 ∈ ([255] : Bytes) ∧ headersFromList [[255]] = none :=
  ⟨by decide, by decide⟩

/-- C8 amended: `HttpHeaders.from_list` fails exactly on lines that are
not valid UTF-8; on every list of UTF-8-decodable raw header lines it
never fails, splits each line on the first colon, trims whitespace from
key and value, silently drops every line without a colon, and maps each
key to the value contributed by the last line carrying that (trimmed)
key. -/
theorem headers_from_list_total_on_utf8 (lines : List Bytes)
    (hdec : ∀ l ∈ lines, (utf8Decode l).isSome = true) :
    ∃ h : Headers, headersFromList lines = some h ∧
      ∀ k : PyStr, alGet h k =
        ((lines.filterMap specLineKV).reverse.find? (fun p => decide (p.1 = k))).map
          (fun p => p.2) := by
  obtain ⟨h, hh, hchar⟩ := headersFromListAux_characterization lines [] hdec
  refine ⟨h, hh, fun k => ?_⟩
  rw [hchar k]
  cases hf : (lines.filterMap specLineKV).reverse.find? (fun p => decide (p.1 = k)) with
  | some p => rfl
  | none => rfl

/-- Witness for the amended C8 on lines exercising trimming, a colonless
line, and a duplicate key whose last occurrence wins. -/
theorem headers_from_list_total_on_utf8_witness :
    ∃ h : Headers,
      headersFromList
        [utf8Encode (pstr ("A: one")), utf8Encode (pstr ("junk")),
         utf8Encode (pstr (" A :  two ")), utf8Encode (pstr ("B:x"))] = some h ∧
      ∀ k : PyStr, alGet h k =
        (([utf8Encode (pstr ("A: one")), utf8Encode (pstr ("junk")),
           utf8Encode (pstr (" A :  two ")), utf8Encode (pstr ("B:x"))].filterMap
            specLineKV).reverse.find? (fun p => decide (p.1 = k))).map
          (fun p => p.2) :=
  headers_from_list_total_on_utf8
    [utf8Encode (pstr ("A: one")), utf8Encode (pstr ("junk")),
     utf8Encode (pstr (" A :  two ")), utf8Encode (pstr ("B:x"))]
    (by decide)
/-- C9 is false as stated: `HttpReqLine.from_str` checks only the token
count, so a second token that does not start with `/` still produces a
RequestLine — here with path `foo`. -/
theorem request_line_path_without_slash_counterexample :
    HttpReqLine.from_str (pstr ("GET foo HTTP/1.1")) =
      some ⟨pstr ("GET"), pstr ("foo"), pstr ("HTTP/1.1")⟩ ∧
    (pstr ("foo")).head? ≠ some '/' :=
  ⟨by decide, by decide⟩

/-- C9 amended: the parser performs no path-shape validation. Every input
whose stripped text splits into exactly three space-separated tokens
yields a RequestLine whose path is the second token verbatim, whether or
not it starts with `/`. -/
theorem request_line_no_path_validation (text m p v : PyStr)
    (hsplit : splitOnChar ' ' (pyStrip strIsSpace text) = [m, p, v]) :
    HttpReqLine.from_str text = some ⟨m, p, v⟩ := by
  unfold HttpReqLine.from_str
  rw [hsplit]

/-- Witness for the amended C9 at the slash-less counterexample input. -/
theorem request_line_no_path_validation_witness :
    HttpReqLine.from_str (pstr ("GET foo HTTP/1.1")) =
      some ⟨pstr ("GET"), pstr ("foo"), pstr ("HTTP/1.1")⟩ :=
  request_line_no_path_validation (pstr ("GET foo HTTP/1.1"))
    (pstr ("GET")) (pstr ("foo")) (pstr ("HTTP/1.1")) (by decide)

/-- C10: the user-agent handler builds its response with no compression
argument, so even for a request carrying both a `User-Agent` header and an
`Accept-Encoding` containing `gzip`, the 200 response body is the raw
`User-Agent` bytes, `Content-Length` is the raw byte length, and no
`Content-Encoding` header is present. -/
theorem user_agent_never_gzipped (req : HttpRequest) (v ae : PyStr)
    (hua : alGet req.headers (pstr ("User-Agent")) = some v)
    (hae : alGet req.headers (pstr ("Accept-Encoding")) = some ae)
    (hgz : listContains ae (pstr ("gzip")) = true) :
    ∃ r : HttpResponse,
      user_agent_handler req = Except.ok r ∧
      r.status = status200 ∧
      r.body = utf8Encode v ∧
      alGet r.headers (pstr ("Content-Encoding")) = none ∧
      alGet r.headers (pstr ("Content-Length")) =
        some ((Nat.repr (utf8Encode v).length).data) := by
  have h1 : pstr ("Content-Type") ≠ pstr ("Content-Length") := by decide
  have h2 : pstr ("Content-Type") ≠ pstr ("Content-Encoding") := by decide
  have h3 : pstr ("Content-Length") ≠ pstr ("Content-Encoding") := by decide
  refine ⟨mkHttpResponse (fun b => b) status200
      (some [(pstr ("Content-Type"), pstr ("text/plain")),
             (pstr ("Content-Length"), (Nat.repr v.length).data)])
      (some (utf8Encode v)) none,
    by unfold user_agent_handler; rw [hua], ?_, ?_, ?_, ?_⟩
  · exact mkHttpResponse_status (fun b => b) status200 _ _ _
  · exact mkHttpResponse_body_plain (fun b => b) status200 _ _ _ rfl
  · simp [mkHttpResponse, alInsert, alGet, h1, h2, h3, compressionHasGzip]
  · simp [mkHttpResponse, alInsert, alGet, h1, h2, h3, compressionHasGzip]

/-- Witness for C10 at a concrete request carrying `Accept-Encoding: gzip`. -/
theorem user_agent_never_gzipped_witness :
    ∃ r : HttpResponse,
      user_agent_handler
        ⟨⟨pstr ("GET"), pstr ("/user-agent"), pstr ("HTTP/1.1")⟩,
         [(pstr ("User-Agent"), pstr ("curl/8.0")),
          (pstr ("Accept-Encoding"), pstr ("deflate, gzip"))], none⟩ = Except.ok r ∧
      r.status = status200 ∧
      r.body = utf8Encode (pstr ("curl/8.0")) ∧
      alGet r.headers (pstr ("Content-Encoding")) = none ∧
      alGet r.headers (pstr ("Content-Length")) =
        some ((Nat.repr (utf8Encode (pstr ("curl/8.0"))).length).data) :=
  user_agent_never_gzipped
    ⟨⟨pstr ("GET"), pstr ("/user-agent"), pstr ("HTTP/1.1")⟩,
     [(pstr ("User-Agent"), pstr ("curl/8.0")),
      (pstr ("Accept-Encoding"), pstr ("deflate, gzip"))], none⟩
    (pstr ("curl/8.0")) (pstr ("deflate, gzip"))
    (by decide) (by decide) (by decide)
